import Mathlib

/-!
Verification development for the digitizer acquisition block
(`digitizer_block_impl.cc`) of the gr-digitizers repository.

The C++ implementation is embedded shallowly:
* doubles/floats become `ℚ`,
* unsigned machine integers become `Nat` (no arithmetic here overflows),
* fallible setters (which throw `std::invalid_argument`) become
  `Except SetterError`,
* the member state touched by the configuration surface becomes the
  `Config` record, and
* `work_stream` / `work_rapid_block` become explicit state-passing
  functions whose driver/application-buffer interactions are inputs
  (the pending error code delivered by `wait_data_ready`) or recorded
  effects (`StreamAction`).

Definitions keep the source names where Lean allows it.
-/

set_option maxRecDepth 8000

namespace GrDigitizers

/-! ### Enumerations (from `digitizer_block.h` / `digitizer_block_impl.cc`) -/

/-- Acquisition mode of the block (`acquisition_mode_t`). -/
inductive acquisition_mode_t
  | STREAMING
  | RAPID_BLOCK
deriving DecidableEq

/-- Hardware downsampling mode (`downsampling_mode_t`). -/
inductive downsampling_mode_t
  | DOWNSAMPLING_MODE_NONE
  | DOWNSAMPLING_MODE_MIN_MAX_AGG
  | DOWNSAMPLING_MODE_DECIMATE
  | DOWNSAMPLING_MODE_AVERAGE
deriving DecidableEq

/-- Trigger direction (`trigger_direction_t`). -/
inductive trigger_direction_t
  | TRIGGER_DIRECTION_RISING
  | TRIGGER_DIRECTION_FALLING
  | TRIGGER_DIRECTION_LOW
  | TRIGGER_DIRECTION_HIGH
deriving DecidableEq

/-- Error conditions of the block (`digitizer_block_errc`); driver error
codes from other categories are folded into `generic`. -/
inductive digitizer_block_errc
  | Interrupted
  | Stopped
  | Watchdog
  | generic (code : Nat)
deriving DecidableEq

/-- Errors thrown by the configuration setters.  Every setter in the
source throws only `std::invalid_argument`; the message strings are
elided. -/
inductive SetterError
  | invalidArgument
deriving DecidableEq

/-! ### Software trigger detection (`find_analog_triggers`,
`find_digital_triggers`)

The C++ functions iterate over the chunk with a persistent member state
`d_trigger_state` (0/1, here `Bool`) and collect the offsets at which a
trigger fired.  `riseStep`/`fallStep` is the per-sample state update,
`riseState`/`fallState` folds it over a prefix, and
`riseOffsets`/`fallOffsets` mirrors the collecting loop (the parameter
`i` is the loop index). -/

/-- Per-sample detector state update in the Rising/High branch of
`find_analog_triggers`: arm (`true`) at a sample `≥ threshold`, re-arm
(`false`) at a sample `≤ lo` where `lo = threshold - band`. -/
def riseStep (threshold lo : ℚ) (st : Bool) (x : ℚ) : Bool :=
  if st = false ∧ threshold ≤ x then true
  else if st = true ∧ x ≤ lo then false
  else st

/-- Detector state after processing `samples` in the Rising/High branch. -/
def riseState (threshold lo : ℚ) (st : Bool) (samples : List ℚ) : Bool :=
  samples.foldl (riseStep threshold lo) st

/-- Offsets pushed by the Rising/High loop of `find_analog_triggers`,
starting with loop index `i` and detector state `st`. -/
def riseOffsets (threshold lo : ℚ) (st : Bool) (i : Nat) : List ℚ → List Nat
  | [] => []
  | x :: xs =>
    if st = false ∧ threshold ≤ x then i :: riseOffsets threshold lo true (i + 1) xs
    else if st = true ∧ x ≤ lo then riseOffsets threshold lo false (i + 1) xs
    else riseOffsets threshold lo st (i + 1) xs

/-- Per-sample detector state update in the Falling/Low branch of
`find_analog_triggers`: the detector fires (state `true → false`) at a
sample `≤ threshold` and re-arms (`false → true`) at a sample `≥ hi`
where `hi = threshold + band`. -/
def fallStep (threshold hi : ℚ) (st : Bool) (x : ℚ) : Bool :=
  if st = true ∧ x ≤ threshold then false
  else if st = false ∧ hi ≤ x then true
  else st

/-- Detector state after processing `samples` in the Falling/Low branch. -/
def fallState (threshold hi : ℚ) (st : Bool) (samples : List ℚ) : Bool :=
  samples.foldl (fallStep threshold hi) st

/-- Offsets pushed by the Falling/Low loop of `find_analog_triggers`. -/
def fallOffsets (threshold hi : ℚ) (st : Bool) (i : Nat) : List ℚ → List Nat
  | [] => []
  | x :: xs =>
    if st = true ∧ x ≤ threshold then i :: fallOffsets threshold hi false (i + 1) xs
    else if st = false ∧ hi ≤ x then fallOffsets threshold hi true (i + 1) xs
    else fallOffsets threshold hi st (i + 1) xs

/-- `digitizer_block_impl::find_analog_triggers`, with the trigger
direction, threshold and the source channel's `actual_range` (read in
the source from `d_trigger_settings` and `d_channel_settings`) passed
explicitly, and the persistent `d_trigger_state` passed in and returned.
The hysteresis band is `actual_range / 100`. -/
def find_analog_triggers (direction : trigger_direction_t) (threshold actual_range : ℚ)
    (st : Bool) (samples : List ℚ) : List Nat × Bool :=
  match direction with
  | .TRIGGER_DIRECTION_RISING | .TRIGGER_DIRECTION_HIGH =>
    (riseOffsets threshold (threshold - actual_range / 100) st 0 samples,
     riseState threshold (threshold - actual_range / 100) st samples)
  | .TRIGGER_DIRECTION_FALLING | .TRIGGER_DIRECTION_LOW =>
    (fallOffsets threshold (threshold + actual_range / 100) st 0 samples,
     fallState threshold (threshold + actual_range / 100) st samples)

/-- Rising/High loop of `digitizer_block_impl::find_digital_triggers`:
fires when the masked bit goes from clear (re-armed) to set. -/
def digiRiseOffsets (mask : Nat) (st : Bool) (i : Nat) : List Nat → List Nat
  | [] => []
  | x :: xs =>
    if st = false ∧ x.land mask ≠ 0 then i :: digiRiseOffsets mask true (i + 1) xs
    else if st = true ∧ x.land mask = 0 then digiRiseOffsets mask false (i + 1) xs
    else digiRiseOffsets mask st (i + 1) xs

/-- Falling/Low loop of `digitizer_block_impl::find_digital_triggers`. -/
def digiFallOffsets (mask : Nat) (st : Bool) (i : Nat) : List Nat → List Nat
  | [] => []
  | x :: xs =>
    if st = true ∧ x.land mask = 0 then i :: digiFallOffsets mask false (i + 1) xs
    else if st = false ∧ x.land mask ≠ 0 then digiFallOffsets mask true (i + 1) xs
    else digiFallOffsets mask st (i + 1) xs

/-- `digitizer_block_impl::find_digital_triggers` (offsets only; the
persistent `d_trigger_state` is threaded exactly as in the analog
case).  `mask` is computed by the caller (`work_stream`) as
`1 <<< (pin_number % 8)`. -/
def find_digital_triggers (direction : trigger_direction_t) (mask : Nat)
    (st : Bool) (samples : List Nat) : List Nat :=
  match direction with
  | .TRIGGER_DIRECTION_RISING | .TRIGGER_DIRECTION_HIGH => digiRiseOffsets mask st 0 samples
  | .TRIGGER_DIRECTION_FALLING | .TRIGGER_DIRECTION_LOW => digiFallOffsets mask st 0 samples

/-! ### Configuration state and setters

The `Config` record collects the member variables of
`digitizer_block_impl` that the configuration surface touches.  The
per-channel and per-port settings are fixed-size arrays in the source
(`std::array<..., MAX_SUPPORTED_AI_CHANNELS>`); here they are lists
updated in place. -/

/-- Sentinel trigger source meaning no software trigger
(`TRIGGER_NONE_SOURCE`). -/
def TRIGGER_NONE_SOURCE : String := "None"

/-- Sentinel trigger source selecting the digital trigger
(`TRIGGER_DIGITAL_SOURCE`; constant value from `digitizer_block.h`,
which is not part of the extracted sources). -/
def TRIGGER_DIGITAL_SOURCE : String := "DI"

/-- Bound on analog channel indices accepted by `convert_to_aichan_idx`
(`MAX_SUPPORTED_AI_CHANNELS`; numeric value from `digitizer_block.h`,
not part of the extracted sources — no claim depends on it). -/
def MAX_SUPPORTED_AI_CHANNELS : Int := 4

/-- Bound on digital port indices accepted by `convert_to_port_idx`
(`MAX_SUPPORTED_PORTS`; numeric value from `digitizer_block.h`, not
part of the extracted sources — no claim depends on it). -/
def MAX_SUPPORTED_PORTS : Nat := 8

/-- One analog channel configuration (`channel_setting_t`).  Default
field values stand in for the defaults of the header, which is not
part of the extracted sources; no claim depends on them. -/
structure channel_setting_t where
  range : ℚ := 2
  offset : ℚ := 0
  enabled : Bool := false
  dc_coupled : Bool := false
  actual_range : ℚ := 2
deriving DecidableEq

/-- One digital port configuration (`port_setting_t`). -/
structure port_setting_t where
  logic_level : ℚ := 3/2
  enabled : Bool := false
deriving DecidableEq

/-- The software trigger configuration (`trigger_setting_t`). -/
structure trigger_setting_t where
  source : String := TRIGGER_NONE_SOURCE
  threshold : ℚ := 0
  direction : trigger_direction_t := .TRIGGER_DIRECTION_RISING
  pin_number : Nat := 0
deriving DecidableEq

/-- The configuration-related member state of `digitizer_block_impl`. -/
structure Config where
  samp_rate : ℚ
  actual_samp_rate : ℚ
  samples : Nat
  pre_samples : Nat
  nr_captures : Nat
  buffer_size : Nat
  nr_buffers : Nat
  driver_buffer_size : Nat
  acquisition_mode : acquisition_mode_t
  poll_rate : ℚ
  downsampling_mode : downsampling_mode_t
  downsampling_factor : Nat
  channel_settings : List channel_setting_t
  port_settings : List port_setting_t
  trigger_settings : trigger_setting_t
  auto_arm : Bool
  trigger_once : Bool
  armed : Bool
deriving DecidableEq

/-- The member initializers of the `digitizer_block_impl` constructor
(`auto_arm` is a constructor argument; `d_armed` starts `false`). -/
def initial_config (auto_arm : Bool) : Config where
  samp_rate := 10000
  actual_samp_rate := 10000
  samples := 10000
  pre_samples := 1000
  nr_captures := 1
  buffer_size := 8192
  nr_buffers := 100
  driver_buffer_size := 100000
  acquisition_mode := .STREAMING
  poll_rate := 1/1000
  downsampling_mode := .DOWNSAMPLING_MODE_NONE
  downsampling_factor := 1
  channel_settings := List.replicate 4 {}
  port_settings := List.replicate 8 {}
  trigger_settings := {}
  auto_arm := auto_arm
  trigger_once := false
  armed := false

/-- In-place update of the element at index `idx` (arrays in the
source; lists here — an out-of-range index leaves the list unchanged). -/
def listModify {α : Type} (l : List α) (idx : Nat) (f : α → α) : List α :=
  match l.get? idx with
  | some a => l.set idx (f a)
  | _ => l

/-- `digitizer_block_impl::set_samples`. -/
def set_samples (s : Config) (samples pre_samples : Int) : Except SetterError Config :=
  if samples < 1 then .error .invalidArgument
  else if pre_samples < 0 then .error .invalidArgument
  else .ok { s with samples := samples.toNat
                    pre_samples := pre_samples.toNat
                    buffer_size := samples.toNat + pre_samples.toNat }

/-- `digitizer_block_impl::set_samp_rate`. -/
def set_samp_rate (s : Config) (rate : ℚ) : Except SetterError Config :=
  if rate ≤ 0 then .error .invalidArgument
  else .ok { s with samp_rate := rate, actual_samp_rate := rate }

/-- `digitizer_block_impl::set_buffer_size` (the trailing
`set_output_multiple` call is a scheduler hint on the GR base class,
outside the embedded state). -/
def set_buffer_size (s : Config) (buffer_size : Int) : Except SetterError Config :=
  if buffer_size < 0 then .error .invalidArgument
  else .ok { s with buffer_size := buffer_size.toNat }

/-- `digitizer_block_impl::set_nr_buffers`. -/
def set_nr_buffers (s : Config) (nr_buffers : Int) : Except SetterError Config :=
  if nr_buffers < 1 then .error .invalidArgument
  else .ok { s with nr_buffers := nr_buffers.toNat }

/-- `digitizer_block_impl::set_driver_buffer_size`. -/
def set_driver_buffer_size (s : Config) (driver_buffer_size : Int) : Except SetterError Config :=
  if driver_buffer_size < 1 then .error .invalidArgument
  else .ok { s with driver_buffer_size := driver_buffer_size.toNat }

/-- `digitizer_block_impl::set_streaming` (poll rate in seconds). -/
def set_streaming (s : Config) (poll_rate : ℚ) : Except SetterError Config :=
  if poll_rate < 0 then .error .invalidArgument
  else .ok { s with acquisition_mode := .STREAMING
                    poll_rate := poll_rate
                    nr_captures := 1 }

/-- `digitizer_block_impl::set_rapid_block`. -/
def set_rapid_block (s : Config) (nr_captures : Int) : Except SetterError Config :=
  if nr_captures < 1 then .error .invalidArgument
  else .ok { s with acquisition_mode := .RAPID_BLOCK
                    nr_captures := nr_captures.toNat }

/-- `digitizer_block_impl::set_downsampling` (with mode NONE the
supplied factor is replaced by 1 before being stored). -/
def set_downsampling (s : Config) (mode : downsampling_mode_t) (downsample_factor : Int) :
    Except SetterError Config :=
  if mode = .DOWNSAMPLING_MODE_NONE then
    .ok { s with downsampling_mode := mode, downsampling_factor := 1 }
  else if downsample_factor < 2 then .error .invalidArgument
  else .ok { s with downsampling_mode := mode
                    downsampling_factor := downsample_factor.toNat }

/-- `digitizer_block_impl::convert_to_aichan_idx`. -/
def convert_to_aichan_idx (id : String) : Except SetterError Nat :=
  match id.toList with
  | [c] =>
    let idx : Int := (c.toUpper.toNat : Int) - ('A'.toNat : Int)
    if idx < 0 ∨ MAX_SUPPORTED_AI_CHANNELS < idx then .error .invalidArgument
    else .ok idx.toNat
  | _ => .error .invalidArgument

/-- `digitizer_block_impl::set_aichan`. -/
def set_aichan (s : Config) (id : String) (enabled : Bool) (range : ℚ)
    (dc_coupling : Bool) (range_offset : ℚ) : Except SetterError Config :=
  match convert_to_aichan_idx id with
  | .error e => .error e
  | .ok idx =>
    let upd := fun (c : channel_setting_t) =>
      { c with range := range, offset := range_offset, enabled := enabled,
               dc_coupled := dc_coupling }
    .ok { s with channel_settings := listModify s.channel_settings idx upd }

/-- `digitizer_block_impl::set_aichan_trigger` (the id is validated
and then stored verbatim as the trigger source). -/
def set_aichan_trigger (s : Config) (id : String) (direction : trigger_direction_t)
    (threshold : ℚ) : Except SetterError Config :=
  match convert_to_aichan_idx id with
  | .error e => .error e
  | .ok _ =>
    .ok { s with trigger_settings := { source := id
                                       threshold := threshold
                                       direction := direction
                                       pin_number := 0 } }

/-- `digitizer_block_impl::convert_to_port_idx`: the id must have
length 5 and its fifth character is parsed as a digit
(`boost::lexical_cast`); note the source checks only the length and
the final digit, not the `port` prefix. -/
def convert_to_port_idx (id : String) : Except SetterError Nat :=
  match id.toList with
  | [_, _, _, _, c] =>
    if c.isDigit then
      let idx : Nat := c.toNat - '0'.toNat
      if MAX_SUPPORTED_PORTS < idx then .error .invalidArgument else .ok idx
    else .error .invalidArgument
  | _ => .error .invalidArgument

/-- `digitizer_block_impl::set_diport`. -/
def set_diport (s : Config) (id : String) (enabled : Bool) (thresh_voltage : ℚ) :
    Except SetterError Config :=
  match convert_to_port_idx id with
  | .error e => .error e
  | .ok idx =>
    let upd := fun (p : port_setting_t) =>
      { p with logic_level := thresh_voltage, enabled := enabled }
    .ok { s with port_settings := listModify s.port_settings idx upd }

/-- `digitizer_block_impl::set_di_trigger` (no validation; never
throws). -/
def set_di_trigger (s : Config) (pin : Nat) (direction : trigger_direction_t) : Config :=
  { s with trigger_settings := { source := TRIGGER_DIGITAL_SOURCE
                                 threshold := 0
                                 direction := direction
                                 pin_number := pin } }

/-- The channel id string used by the claim instances below. -/
def chanIdA : String := "A"

/-- The port id string used by the claim instances below. -/
def portId0 : String := "port0"

/-- A configuration whose block is armed (`is_armed()` returns
`d_armed = true`). -/
def armed_config : Config := { initial_config false with armed := true }

/-! ### Downsampling helpers (`digitizer_block_impl` getters) -/

/-- `digitizer_block_impl::get_pre_trigger_samples_with_downsampling`. -/
def get_pre_trigger_samples_with_downsampling (cfg : Config) : Nat :=
  if cfg.downsampling_mode ≠ .DOWNSAMPLING_MODE_NONE then
    cfg.pre_samples / cfg.downsampling_factor
  else cfg.pre_samples

/-- `digitizer_block_impl::get_post_trigger_samples_with_downsampling`. -/
def get_post_trigger_samples_with_downsampling (cfg : Config) : Nat :=
  if cfg.downsampling_mode ≠ .DOWNSAMPLING_MODE_NONE then
    cfg.samples / cfg.downsampling_factor
  else cfg.samples

/-- `digitizer_block_impl::get_block_size`. -/
def get_block_size (cfg : Config) : Nat :=
  cfg.samples + cfg.pre_samples

/-- `digitizer_block_impl::get_block_size_with_downsampling`. -/
def get_block_size_with_downsampling (cfg : Config) : Nat :=
  get_pre_trigger_samples_with_downsampling cfg
    + get_post_trigger_samples_with_downsampling cfg

/-! ### Streaming worker (`digitizer_block_impl::work_stream`)

`work_stream` first waits on the application buffer; the pending error
code it receives there is an input of the embedding (`ec`; `none` means
no error).  Its externally visible effects are recorded as a list of
`StreamAction`s: pushing the code into the error ring
(`add_error_code`), the disarm/arm pair of the watchdog recovery, and —
on the success path — consuming one chunk into the output slots and
attaching the acq-info/trigger tags (abstracted as `consume_chunk`).
The returned `Int` is the GR work return value. -/

/-- Observable action performed by `work_stream`. -/
inductive StreamAction
  | record (ec : digitizer_block_errc)
  | disarm_call
  | arm_call
  | consume_chunk
deriving DecidableEq

/-- `digitizer_block_impl::work_stream`.  The source asserts
`noutput_items ≥ d_buffer_size` and then processes exactly one buffer:
`noutput_items = d_buffer_size`. -/
def work_stream (noutput_items : Int) (buffer_size : Nat)
    (ec : Option digitizer_block_errc) : Int × List StreamAction :=
  match ec with
  | some e =>
    if e = .Stopped then (-1, [.record e])
    else if e = .Watchdog then (0, [.record e, .disarm_call, .arm_call])
    else (-1, [.record e])
  | none => ((buffer_size : Int), [.consume_chunk])

/-! ### Timebase tag emission (`digitizer_block_impl::work` and `arm`)

`work` dispatches to `work_stream`/`work_rapid_block` and, whenever the
returned value is positive and `d_timebase_published` is still false,
attaches a timebase tag at offset `nitems_written(0)` to every output
slot and sets the flag.  `arm` resets the flag (when the block was not
already armed — `arm` returns early otherwise).  `nitems_written`
advances by the number of produced samples, i.e. by the returned value
when it is positive; this bookkeeping belongs to the GR scheduler, so
the embedding tracks it explicitly. -/

/-- The state relevant to timebase tag emission. -/
structure TimebaseState where
  timebase_published : Bool
  nitems_written : Nat
  armed : Bool
deriving DecidableEq

/-- `digitizer_block_impl::arm`, restricted to its effect on
`TimebaseState` (already-armed calls return early and reset nothing). -/
def arm_timebase (s : TimebaseState) : TimebaseState :=
  if s.armed then s else { s with armed := true, timebase_published := false }

/-- Timebase tagging of one `work` call that returned `retval`.
Emission yields one `(slot, offset)` pair per output slot. -/
def work_emit_timebase (s : TimebaseState) (retval : Int) (nslots : Nat) :
    TimebaseState × List (Nat × Nat) :=
  if 0 < retval ∧ s.timebase_published = false then
    ({ s with timebase_published := true
              nitems_written := s.nitems_written + retval.toNat },
     (List.range nslots).map (fun slot => (slot, s.nitems_written)))
  else
    ({ s with nitems_written := s.nitems_written + retval.toNat }, [])

/-- A sequence of `work` calls with the given return values; collects
all emitted timebase tags. -/
def run_work_emit (s : TimebaseState) (calls : List Int) (nslots : Nat) :
    TimebaseState × List (Nat × Nat) :=
  match calls with
  | [] => (s, [])
  | r :: rs =>
    let p := work_emit_timebase s r nslots
    let q := run_work_emit p.1 rs nslots
    (q.1, p.2 ++ q.2)

/-! ### Rapid-block worker (`digitizer_block_impl::work_rapid_block`)

The per-waveform fetch state machine `rapid_block_state_t` is declared
in `digitizer_block_impl.h`, which is not among the extracted sources;
its operations are modelled from the spec (§4.4 RapidBlockState):
WAITING initializes a capture sequence of `nr_captures` waveforms,
READING_PART1 reads the first batch of one waveform (clamped to
`samples_left`) and attaches the trigger tags, READING_THE_REST
continues until the waveform is exhausted, then steps to the next
waveform or back to WAITING.  Driver calls (`driver_prefetch_block`,
`driver_get_rapid_block_data`), the auto-arm disarm/arm pair and
`wait_data_ready` are assumed to succeed — the claims under study
concern error-free runs. -/

/-- Phase of the rapid-block state machine. -/
inductive rapid_block_phase
  | WAITING
  | READING_PART1
  | READING_THE_REST
deriving DecidableEq

/-- Modelled from the spec: the `rapid_block_state_t` record of
`digitizer_block_impl.h` (file not among the extracted sources);
fields per spec §4.4. -/
structure rapid_block_state_t where
  state : rapid_block_phase
  waveform_count : Nat
  waveform_idx : Nat
  offset : Nat
  samples_left : Nat
deriving DecidableEq

/-- Modelled from the spec: `rapid_block_state_t::set_waveform_params`
(initiate the state machine for the current waveform). -/
def rb_set_waveform_params (b : rapid_block_state_t) (offset samples_to_read : Nat) :
    rapid_block_state_t :=
  { b with offset := offset, samples_left := samples_to_read }

/-- Modelled from the spec: `rapid_block_state_t::update_state` — after
reading `nitems` samples, stay on this waveform (READING_THE_REST) if
samples are left, otherwise advance to the next waveform
(READING_PART1) or, after the last one, back to WAITING. -/
def rb_update_state (b : rapid_block_state_t) (nitems : Nat) : rapid_block_state_t :=
  let b2 : rapid_block_state_t :=
    { b with offset := b.offset + nitems, samples_left := b.samples_left - nitems }
  if 0 < b2.samples_left then { b2 with state := .READING_THE_REST }
  else if b2.waveform_idx + 1 < b2.waveform_count then
    { b2 with waveform_idx := b2.waveform_idx + 1, state := .READING_PART1 }
  else { b2 with waveform_idx := b2.waveform_idx + 1, state := .WAITING }

/-- The mutable state read and written by `work_rapid_block`: the
fetch state machine `d_bstate` and the `d_was_triggered_once` flag. -/
structure RapidRunState where
  bstate : rapid_block_state_t
  was_triggered_once : Bool
deriving DecidableEq

/-- The rapid-block state right after `start()`: `d_bstate` begins in
WAITING and `start` resets `d_was_triggered_once` to false. -/
def rb_fresh : RapidRunState where
  bstate := { state := .WAITING, waveform_count := 0, waveform_idx := 0,
              offset := 0, samples_left := 0 }
  was_triggered_once := false

/-- `digitizer_block_impl::work_rapid_block` on an error-free run.
Returns the new state, the GR work return value, and the number of
waveforms started in this call (a waveform is started exactly when the
READING_PART1 branch runs and attaches its trigger tags).  On WAITING
entry with `trigger_once && was_triggered_once` the call returns the
end-of-stream value `-1` and changes nothing; otherwise a WAITING entry
initializes a capture sequence of `nr_captures` waveforms and falls
through to READING_PART1 within the same call. -/
def work_rapid_block (cfg : Config) (s : RapidRunState) (noutput_items : Nat) :
    RapidRunState × Int × Nat :=
  if s.bstate.state = .WAITING ∧ cfg.trigger_once = true ∧ s.was_triggered_once = true then
    (s, -1, 0)
  else
    let b0 : rapid_block_state_t :=
      if s.bstate.state = .WAITING then
        { state := .READING_PART1, waveform_count := cfg.nr_captures, waveform_idx := 0,
          offset := s.bstate.offset, samples_left := s.bstate.samples_left }
      else s.bstate
    if b0.state = .READING_PART1 then
      let downsampled_samples := get_block_size_with_downsampling cfg
      let b1 := rb_set_waveform_params b0 0 downsampled_samples
      let n := min noutput_items b1.samples_left
      ({ bstate := rb_update_state b1 n, was_triggered_once := true }, (n : Int), 1)
    else if b0.state = .READING_THE_REST then
      let n := min noutput_items b0.samples_left
      ({ bstate := rb_update_state b0 n, was_triggered_once := s.was_triggered_once },
       (n : Int), 0)
    else (s, -1, 0)

/-- A sequence of `work_rapid_block` calls; collects the return values
and the total number of waveforms started. -/
def run_rapid (cfg : Config) (s : RapidRunState) : List Nat → RapidRunState × List Int × Nat
  | [] => (s, [], 0)
  | n :: ns =>
    let p := work_rapid_block cfg s n
    let q := run_rapid cfg p.1 ns
    (q.1, p.2.1 :: q.2.1, p.2.2 + q.2.2)

/-- Upper bound on the number of waveforms the machine can still start
from state `s` when `trigger_once` is set (the potential used for the
counting argument). -/
def rb_remaining (cfg : Config) (s : RapidRunState) : Nat :=
  match s.bstate.state with
  | .WAITING =>
    if cfg.trigger_once = true ∧ s.was_triggered_once = true then 0 else cfg.nr_captures
  | .READING_PART1 => s.bstate.waveform_count - s.bstate.waveform_idx
  | .READING_THE_REST => s.bstate.waveform_count - (s.bstate.waveform_idx + 1)

/-- States reachable by `work_rapid_block`: while a capture sequence is
in progress the waveform index is within the sequence and a waveform
has been produced. -/
def rb_wf (s : RapidRunState) : Prop :=
  s.bstate.state ≠ .WAITING →
    s.bstate.waveform_idx < s.bstate.waveform_count ∧ s.was_triggered_once = true

/-- A rapid-block configuration with `trigger_once` set and two
captures per acquisition (used to examine claim C3). -/
def cfg_rapid_cx : Config :=
  { initial_config false with
    acquisition_mode := .RAPID_BLOCK, trigger_once := true, nr_captures := 2,
    samples := 1, pre_samples := 0 }

/-! ## Theorems -/

/-! ### Analog trigger detector lemmas -/

lemma riseOffsets_cons (threshold lo : ℚ) (st : Bool) (i : Nat) (x : ℚ) (xs : List ℚ) :
    riseOffsets threshold lo st i (x :: xs)
      = (if st = false ∧ threshold ≤ x then [i] else [])
          ++ riseOffsets threshold lo (riseStep threshold lo st x) (i + 1) xs := by
  by_cases h1 : st = false ∧ threshold ≤ x
  · simp [riseOffsets, riseStep, h1]
  · by_cases h2 : st = true ∧ x ≤ lo
    · simp [riseOffsets, riseStep, h1, h2]
    · simp [riseOffsets, riseStep, h1, h2]

lemma riseState_cons (threshold lo : ℚ) (st : Bool) (x : ℚ) (xs : List ℚ) :
    riseState threshold lo st (x :: xs)
      = riseState threshold lo (riseStep threshold lo st x) xs := rfl

lemma riseOffsets_mem (threshold lo : ℚ) (xs : List ℚ) :
    ∀ (st : Bool) (i j : Nat), j ∈ riseOffsets threshold lo st i xs →
      ∃ m, j = i + m ∧ riseState threshold lo st (xs.take m) = false ∧
        ∃ h : m < xs.length, threshold ≤ xs.get ⟨m, h⟩ := by
  induction xs with
  | nil => intro st i j h; simp [riseOffsets] at h
  | cons x xs ih =>
    intro st i j h
    rw [riseOffsets_cons, List.mem_append] at h
    rcases h with h1 | h2
    · by_cases hc : st = false ∧ threshold ≤ x
      · rw [if_pos hc] at h1
        simp only [List.mem_singleton] at h1
        subst h1
        refine ⟨0, by omega, ?_, ⟨by simp, by simpa using hc.2⟩⟩
        simpa [riseState] using hc.1
      · rw [if_neg hc] at h1; simp at h1
    · rcases ih (riseStep threshold lo st x) (i + 1) j h2 with ⟨m, hj, hst, hm, hget⟩
      refine ⟨m + 1, by omega, ?_, ⟨by simpa using hm, ?_⟩⟩
      · rw [List.take_succ_cons, riseState_cons]
        exact hst
      · simpa using hget

lemma riseOffsets_head_armed (threshold lo : ℚ) (xs : List ℚ) :
    ∀ (i b : Nat), (riseOffsets threshold lo true i xs).head? = some b →
      ∃ m, i + m < b ∧ ∃ h : m < xs.length, xs.get ⟨m, h⟩ ≤ lo := by
  induction xs with
  | nil => intro i b h; simp [riseOffsets] at h
  | cons x xs ih =>
    intro i b h
    rw [riseOffsets_cons] at h
    have hfire : ¬ (true = false ∧ threshold ≤ x) := by simp
    rw [if_neg hfire, List.nil_append] at h
    by_cases hlo : x ≤ lo
    · have hstep : riseStep threshold lo true x = false := by
        simp [riseStep, hlo]
      rw [hstep] at h
      have hb : b ∈ riseOffsets threshold lo false (i + 1) xs :=
        List.mem_of_mem_head? h
      rcases riseOffsets_mem threshold lo xs false (i + 1) b hb with ⟨m, hj, -, -⟩
      exact ⟨0, by omega, ⟨by simp, by simpa using hlo⟩⟩
    · have hstep : riseStep threshold lo true x = true := by
        simp [riseStep, hlo]
      rw [hstep] at h
      rcases ih (i + 1) b h with ⟨m, hlt, hm, hget⟩
      exact ⟨m + 1, by omega, ⟨by simpa using hm, by simpa using hget⟩⟩

lemma riseOffsets_chain (threshold lo : ℚ) (xs : List ℚ) :
    ∀ (st : Bool) (i : Nat),
      List.Chain' (fun a b => ∃ m, a ≤ i + m ∧ i + m < b ∧
          ∃ h : m < xs.length, xs.get ⟨m, h⟩ ≤ lo)
        (riseOffsets threshold lo st i xs) := by
  induction xs with
  | nil => intro st i; simp [riseOffsets]
  | cons x xs ih =>
    intro st i
    rw [riseOffsets_cons]
    have himp : ∀ a b, (∃ m, a ≤ (i + 1) + m ∧ (i + 1) + m < b ∧
          ∃ h : m < xs.length, xs.get ⟨m, h⟩ ≤ lo) →
        (∃ m, a ≤ i + m ∧ i + m < b ∧
          ∃ h : m < (x :: xs).length, (x :: xs).get ⟨m, h⟩ ≤ lo) := by
      rintro a b ⟨m, ham, hmb, hm, hget⟩
      exact ⟨m + 1, by omega, by omega, ⟨by simpa using hm, by simpa using hget⟩⟩
    by_cases hc : st = false ∧ threshold ≤ x
    · have hstep : riseStep threshold lo st x = true := by simp [riseStep, hc]
      rw [if_pos hc, List.singleton_append, hstep]
      refine List.chain'_cons'.mpr ⟨?_, (ih true (i + 1)).imp himp⟩
      intro b hb
      rcases riseOffsets_head_armed threshold lo xs (i + 1) b hb with ⟨m, hlt, hm, hget⟩
      exact ⟨m + 1, by omega, by omega, ⟨by simpa using hm, by simpa using hget⟩⟩
    · rw [if_neg hc, List.nil_append]
      exact (ih (riseStep threshold lo st x) (i + 1)).imp himp

lemma fallOffsets_cons (threshold hi : ℚ) (st : Bool) (i : Nat) (x : ℚ) (xs : List ℚ) :
    fallOffsets threshold hi st i (x :: xs)
      = (if st = true ∧ x ≤ threshold then [i] else [])
          ++ fallOffsets threshold hi (fallStep threshold hi st x) (i + 1) xs := by
  by_cases h1 : st = true ∧ x ≤ threshold
  · simp [fallOffsets, fallStep, h1]
  · by_cases h2 : st = false ∧ hi ≤ x
    · simp [fallOffsets, fallStep, h1, h2]
    · simp [fallOffsets, fallStep, h1, h2]

lemma fallState_cons (threshold hi : ℚ) (st : Bool) (x : ℚ) (xs : List ℚ) :
    fallState threshold hi st (x :: xs)
      = fallState threshold hi (fallStep threshold hi st x) xs := rfl

lemma fallOffsets_mem (threshold hi : ℚ) (xs : List ℚ) :
    ∀ (st : Bool) (i j : Nat), j ∈ fallOffsets threshold hi st i xs →
      ∃ m, j = i + m ∧ fallState threshold hi st (xs.take m) = true ∧
        ∃ h : m < xs.length, xs.get ⟨m, h⟩ ≤ threshold := by
  induction xs with
  | nil => intro st i j h; simp [fallOffsets] at h
  | cons x xs ih =>
    intro st i j h
    rw [fallOffsets_cons, List.mem_append] at h
    rcases h with h1 | h2
    · by_cases hc : st = true ∧ x ≤ threshold
      · rw [if_pos hc] at h1
        simp only [List.mem_singleton] at h1
        subst h1
        refine ⟨0, by omega, ?_, ⟨by simp, by simpa using hc.2⟩⟩
        simpa [fallState] using hc.1
      · rw [if_neg hc] at h1; simp at h1
    · rcases ih (fallStep threshold hi st x) (i + 1) j h2 with ⟨m, hj, hst, hm, hget⟩
      refine ⟨m + 1, by omega, ?_, ⟨by simpa using hm, ?_⟩⟩
      · rw [List.take_succ_cons, fallState_cons]
        exact hst
      · simpa using hget

lemma fallOffsets_head_disarmed (threshold hi : ℚ) (xs : List ℚ) :
    ∀ (i b : Nat), (fallOffsets threshold hi false i xs).head? = some b →
      ∃ m, i + m < b ∧ ∃ h : m < xs.length, hi ≤ xs.get ⟨m, h⟩ := by
  induction xs with
  | nil => intro i b h; simp [fallOffsets] at h
  | cons x xs ih =>
    intro i b h
    rw [fallOffsets_cons] at h
    have hfire : ¬ (false = true ∧ x ≤ threshold) := by simp
    rw [if_neg hfire, List.nil_append] at h
    by_cases hhi : hi ≤ x
    · have hstep : fallStep threshold hi false x = true := by
        simp [fallStep, hhi]
      rw [hstep] at h
      have hb : b ∈ fallOffsets threshold hi true (i + 1) xs :=
        List.mem_of_mem_head? h
      rcases fallOffsets_mem threshold hi xs true (i + 1) b hb with ⟨m, hj, -, -⟩
      exact ⟨0, by omega, ⟨by simp, by simpa using hhi⟩⟩
    · have hstep : fallStep threshold hi false x = false := by
        simp [fallStep, hhi]
      rw [hstep] at h
      rcases ih (i + 1) b h with ⟨m, hlt, hm, hget⟩
      exact ⟨m + 1, by omega, ⟨by simpa using hm, by simpa using hget⟩⟩

lemma fallOffsets_chain (threshold hi : ℚ) (xs : List ℚ) :
    ∀ (st : Bool) (i : Nat),
      List.Chain' (fun a b => ∃ m, a ≤ i + m ∧ i + m < b ∧
          ∃ h : m < xs.length, hi ≤ xs.get ⟨m, h⟩)
        (fallOffsets threshold hi st i xs) := by
  induction xs with
  | nil => intro st i; simp [fallOffsets]
  | cons x xs ih =>
    intro st i
    rw [fallOffsets_cons]
    have himp : ∀ a b, (∃ m, a ≤ (i + 1) + m ∧ (i + 1) + m < b ∧
          ∃ h : m < xs.length, hi ≤ xs.get ⟨m, h⟩) →
        (∃ m, a ≤ i + m ∧ i + m < b ∧
          ∃ h : m < (x :: xs).length, hi ≤ (x :: xs).get ⟨m, h⟩) := by
      rintro a b ⟨m, ham, hmb, hm, hget⟩
      exact ⟨m + 1, by omega, by omega, ⟨by simpa using hm, by simpa using hget⟩⟩
    by_cases hc : st = true ∧ x ≤ threshold
    · have hstep : fallStep threshold hi st x = false := by simp [fallStep, hc]
      rw [if_pos hc, List.singleton_append, hstep]
      refine List.chain'_cons'.mpr ⟨?_, (ih false (i + 1)).imp himp⟩
      intro b hb
      rcases fallOffsets_head_disarmed threshold hi xs (i + 1) b hb with ⟨m, hlt, hm, hget⟩
      exact ⟨m + 1, by omega, by omega, ⟨by simpa using hm, by simpa using hget⟩⟩
    · rw [if_neg hc, List.nil_append]
      exact (ih (fallStep threshold hi st x) (i + 1)).imp himp

/-! ### Claim C4 -/

/-- C4: for the analog trigger detector with direction Rising or High,
for every input sequence and initial detector state, a trigger fires at
offset `j` only if the detector is disarmed there (`riseState` over the
prefix is `false`) and `samples[j] ≥ threshold`; between two
consecutive fired offsets some sample is `≤ threshold − band` with
`band = actual_range / 100`; and the symmetric property holds for
Falling/Low (where the fire-ready detector state is `true` and the
separating sample is `≥ threshold + band`).  High behaves as Rising
and Low as Falling. -/
theorem analog_trigger_hysteresis (threshold actual_range : ℚ) (st : Bool) (samples : List ℚ) :
    (∀ j ∈ (find_analog_triggers .TRIGGER_DIRECTION_RISING threshold actual_range st samples).1,
        riseState threshold (threshold - actual_range / 100) st (samples.take j) = false ∧
        ∃ h : j < samples.length, threshold ≤ samples.get ⟨j, h⟩)
  ∧ List.Chain' (fun a b => ∃ k, a ≤ k ∧ k < b ∧ ∃ h : k < samples.length,
        samples.get ⟨k, h⟩ ≤ threshold - actual_range / 100)
      (find_analog_triggers .TRIGGER_DIRECTION_RISING threshold actual_range st samples).1
  ∧ find_analog_triggers .TRIGGER_DIRECTION_HIGH threshold actual_range st samples
      = find_analog_triggers .TRIGGER_DIRECTION_RISING threshold actual_range st samples
  ∧ (∀ j ∈ (find_analog_triggers .TRIGGER_DIRECTION_FALLING threshold actual_range st samples).1,
        fallState threshold (threshold + actual_range / 100) st (samples.take j) = true ∧
        ∃ h : j < samples.length, samples.get ⟨j, h⟩ ≤ threshold)
  ∧ List.Chain' (fun a b => ∃ k, a ≤ k ∧ k < b ∧ ∃ h : k < samples.length,
        threshold + actual_range / 100 ≤ samples.get ⟨k, h⟩)
      (find_analog_triggers .TRIGGER_DIRECTION_FALLING threshold actual_range st samples).1
  ∧ find_analog_triggers .TRIGGER_DIRECTION_LOW threshold actual_range st samples
      = find_analog_triggers .TRIGGER_DIRECTION_FALLING threshold actual_range st samples := by
  simp only [find_analog_triggers]
  refine ⟨?_, ?_, trivial, ?_, ?_, trivial⟩
  · intro j hj
    rcases riseOffsets_mem threshold (threshold - actual_range / 100) samples st 0 j hj with
      ⟨m, hj0, hst, hm, hget⟩
    obtain rfl : j = m := by omega
    exact ⟨hst, ⟨hm, hget⟩⟩
  · refine (riseOffsets_chain threshold (threshold - actual_range / 100) samples st 0).imp ?_
    rintro a b ⟨m, h1, h2, hm, hget⟩
    exact ⟨m, by omega, by omega, ⟨hm, hget⟩⟩
  · intro j hj
    rcases fallOffsets_mem threshold (threshold + actual_range / 100) samples st 0 j hj with
      ⟨m, hj0, hst, hm, hget⟩
    obtain rfl : j = m := by omega
    exact ⟨hst, ⟨hm, hget⟩⟩
  · refine (fallOffsets_chain threshold (threshold + actual_range / 100) samples st 0).imp ?_
    rintro a b ⟨m, h1, h2, hm, hget⟩
    exact ⟨m, by omega, by omega, ⟨hm, hget⟩⟩

/-- Witness for C4: on samples `[2, -1, 3]` with threshold 1, range
100 (band 1) and a disarmed detector, offset 2 is a fired offset and
the theorem yields its fire conditions there. -/
theorem analog_trigger_hysteresis_witness :
    riseState 1 (1 - 100 / 100) false (([2, -1, 3] : List ℚ).take 2) = false ∧
    ∃ h : 2 < ([2, -1, 3] : List ℚ).length, (1 : ℚ) ≤ ([2, -1, 3] : List ℚ).get ⟨2, h⟩ :=
  (analog_trigger_hysteresis 1 100 false [2, -1, 3]).1 2
    (by norm_num [find_analog_triggers, riseOffsets])

/-! ### Claim C7 -/

/-- C7: the digital trigger detector on port 0, bit 3 (mask
`1 <<< 3 = 0x08`), direction Rising, starting from the reset
(disarmed) state, yields exactly the trigger offsets `[2, 5]` on the
sample sequence `0x00, 0x00, 0x08, 0x08, 0x00, 0x08`. -/
theorem digital_trigger_scenario :
    find_digital_triggers .TRIGGER_DIRECTION_RISING (1 <<< (3 % 8)) false
      [0x00, 0x00, 0x08, 0x08, 0x00, 0x08] = [2, 5] := by decide

/-! ### Claims C1 and C5 (streaming worker) -/

/-- C1: every `work()` call in STREAMING mode that returns a value
`n > 0` returns exactly the configured `buffer_size` (one chunk per
call), under the asserted precondition `noutput_items ≥ buffer_size`. -/
theorem work_stream_returns_buffer_size (noutput_items : Int) (buffer_size : Nat)
    (ec : Option digitizer_block_errc)
    (hpre : (buffer_size : Int) ≤ noutput_items)
    (hpos : 0 < (work_stream noutput_items buffer_size ec).1) :
    (work_stream noutput_items buffer_size ec).1 = (buffer_size : Int) := by
  cases ec with
  | none => rfl
  | some e =>
    exfalso
    simp only [work_stream] at hpos
    split at hpos
    · norm_num at hpos
    · split at hpos
      · norm_num at hpos
      · norm_num at hpos

/-- Witness for C1: with `noutput_items = buffer_size = 8192` and no
pending error, `work_stream` returns 8192. -/
theorem work_stream_returns_buffer_size_witness :
    (work_stream 8192 8192 none).1 = (8192 : Int) :=
  work_stream_returns_buffer_size 8192 8192 none (by norm_num) (by norm_num [work_stream])

/-- C5: streaming error handling.  A pending Watchdog error makes
`work_stream` record the code, perform exactly one `disarm` followed by
one `arm`, and return 0; a pending Stopped error returns the
end-of-stream value −1 with no rearm; any other non-empty error
(driver codes, Interrupted) also returns −1 after recording the code. -/
theorem work_stream_error_paths (noutput_items : Int) (buffer_size : Nat) :
    work_stream noutput_items buffer_size (some .Watchdog)
        = (0, [.record .Watchdog, .disarm_call, .arm_call])
  ∧ work_stream noutput_items buffer_size (some .Stopped) = (-1, [.record .Stopped])
  ∧ (∀ code : Nat, work_stream noutput_items buffer_size (some (.generic code))
        = (-1, [.record (.generic code)]))
  ∧ work_stream noutput_items buffer_size (some .Interrupted)
        = (-1, [.record .Interrupted]) :=
  ⟨rfl, rfl, fun _ => rfl, rfl⟩

/-! ### Claims C8, C9, C10 (setter contracts) -/

/-- C8: `set_downsampling` fails with InvalidArgument iff the mode is
not NONE and the factor is `< 2`; on success the stored factor is 1
exactly when the stored mode is NONE (with mode NONE the supplied
factor is ignored and 1 stored); the constructed block satisfies the
same invariant. -/
theorem set_downsampling_spec (s : Config) (mode : downsampling_mode_t) (factor : Int) :
    ((set_downsampling s mode factor = .error .invalidArgument)
        ↔ (mode ≠ .DOWNSAMPLING_MODE_NONE ∧ factor < 2))
  ∧ (∀ s2, set_downsampling s mode factor = .ok s2 →
        (s2.downsampling_factor = 1 ↔ s2.downsampling_mode = .DOWNSAMPLING_MODE_NONE))
  ∧ (mode = .DOWNSAMPLING_MODE_NONE →
        set_downsampling s mode factor
          = .ok { s with downsampling_mode := mode, downsampling_factor := 1 })
  ∧ (∀ auto_arm, (initial_config auto_arm).downsampling_factor = 1
        ∧ (initial_config auto_arm).downsampling_mode = .DOWNSAMPLING_MODE_NONE) := by
  by_cases hmode : mode = .DOWNSAMPLING_MODE_NONE
  · subst hmode
    refine ⟨by simp [set_downsampling], ?_, fun _ => by simp [set_downsampling],
      fun _ => ⟨rfl, rfl⟩⟩
    intro s2 h
    have h2 : (Except.ok { s with
          downsampling_mode := .DOWNSAMPLING_MODE_NONE, downsampling_factor := 1 }
        : Except SetterError Config) = Except.ok s2 := by
      simpa [set_downsampling] using h
    cases h2
    simp
  · by_cases hf : factor < 2
    · refine ⟨by simp [set_downsampling, hmode, hf], ?_,
        fun hm => absurd hm hmode, fun _ => ⟨rfl, rfl⟩⟩
      intro s2 h
      simp [set_downsampling, hmode, hf] at h
    · refine ⟨by simp [set_downsampling, hmode, hf], ?_,
        fun hm => absurd hm hmode, fun _ => ⟨rfl, rfl⟩⟩
      intro s2 h
      have h2 : (Except.ok { s with
            downsampling_mode := mode, downsampling_factor := factor.toNat }
          : Except SetterError Config) = Except.ok s2 := by
        simpa [set_downsampling, hmode, hf] using h
      cases h2
      constructor
      · intro h1
        exfalso
        have h3 : factor.toNat = 1 := h1
        omega
      · intro h2
        exact absurd h2 hmode

/-- Witness for C8: a NONE-mode call succeeds with factor 1 even when
the supplied factor is 0, and the stored-factor/mode equivalence holds
on the result of a MIN-MAX call with factor 5. -/
theorem set_downsampling_spec_witness :
    set_downsampling (initial_config false) .DOWNSAMPLING_MODE_NONE 0
      = .ok { initial_config false with
              downsampling_mode := .DOWNSAMPLING_MODE_NONE, downsampling_factor := 1 }
  ∧ (({ initial_config false with
          downsampling_mode := .DOWNSAMPLING_MODE_MIN_MAX_AGG,
          downsampling_factor := (5 : Int).toNat } : Config).downsampling_factor = 1
      ↔ ({ initial_config false with
            downsampling_mode := .DOWNSAMPLING_MODE_MIN_MAX_AGG,
            downsampling_factor := (5 : Int).toNat } : Config).downsampling_mode
          = .DOWNSAMPLING_MODE_NONE) :=
  ⟨(set_downsampling_spec (initial_config false) .DOWNSAMPLING_MODE_NONE 0).2.2.1 rfl,
   (set_downsampling_spec (initial_config false) .DOWNSAMPLING_MODE_MIN_MAX_AGG 5).2.1 _ rfl⟩

/-- C9: every successful `set_streaming poll_rate` (with
`poll_rate ≥ 0`) sets the acquisition mode to STREAMING, stores the
poll rate, and resets `nr_captures` to 1, discarding a value set by
`set_rapid_block`; the record-update form of the right-hand side shows
no other configuration field changes. -/
theorem set_streaming_spec (s : Config) (poll_rate : ℚ) (h : 0 ≤ poll_rate) :
    set_streaming s poll_rate
      = .ok { s with
              acquisition_mode := .STREAMING, poll_rate := poll_rate, nr_captures := 1 } := by
  simp [set_streaming, not_lt.mpr h]

/-- Witness for C9: on a configuration with `nr_captures = 7`,
`set_streaming (1/2)` succeeds and resets `nr_captures` to 1. -/
theorem set_streaming_spec_witness :
    set_streaming { initial_config false with nr_captures := 7 } (1/2)
      = .ok { initial_config false with
              acquisition_mode := .STREAMING, poll_rate := 1/2, nr_captures := 1 } :=
  set_streaming_spec { initial_config false with nr_captures := 7 } (1/2) (by norm_num)

/-- C10: every successful `set_samples post pre` (with `post ≥ 1`,
`pre ≥ 0`) stores the two sample counts and overwrites `buffer_size`
with `post + pre`, discarding a value set by `set_buffer_size`; the
record-update form shows no other field changes. -/
theorem set_samples_spec (s : Config) (samples pre_samples : Int)
    (h1 : 1 ≤ samples) (h2 : 0 ≤ pre_samples) :
    set_samples s samples pre_samples
      = .ok { s with
              samples := samples.toNat, pre_samples := pre_samples.toNat,
              buffer_size := samples.toNat + pre_samples.toNat } := by
  simp [set_samples, not_lt.mpr h1, not_lt.mpr h2]

/-- Witness for C10: on a configuration with `buffer_size = 4096`,
`set_samples 900 100` succeeds and overwrites `buffer_size` with 1000. -/
theorem set_samples_spec_witness :
    set_samples { initial_config false with buffer_size := 4096 } 900 100
      = .ok { initial_config false with
              samples := 900, pre_samples := 100, buffer_size := 1000 } :=
  set_samples_spec { initial_config false with buffer_size := 4096 } 900 100
    (by norm_num) (by norm_num)

/-! ### Claim C2 (setters while armed) -/

/-- Counterexample for C2: the block is armed, yet `set_samp_rate 5000`
does not fail — it succeeds and changes `samp_rate` (the source setters
never consult `d_armed` and no StateError exists on this path). -/
theorem setters_armed_counterexample :
    armed_config.armed = true
  ∧ set_samp_rate armed_config 5000
      = .ok { armed_config with samp_rate := 5000, actual_samp_rate := 5000 }
  ∧ ¬ ({ armed_config with samp_rate := 5000, actual_samp_rate := 5000 } : Config).samp_rate
      = armed_config.samp_rate := by
  refine ⟨rfl, by norm_num [set_samp_rate], ?_⟩
  norm_num [armed_config, initial_config]

/-- C2 as amended: the configuration setters do not check the armed
state.  Invoked on an armed block they behave exactly as when
disarmed: arguments are validated (InvalidArgument on out-of-range)
and on valid arguments the call succeeds and mutates the stored
configuration. -/
theorem setters_ignore_armed_state (s : Config) (hs : s.armed = true)
    (rate : ℚ) (hrate : 0 < rate)
    (post pre : Int) (hpost : 1 ≤ post) (hpre : 0 ≤ pre)
    (bsz : Int) (hbsz : 0 ≤ bsz)
    (nb : Int) (hnb : 1 ≤ nb)
    (db : Int) (hdb : 1 ≤ db)
    (pr : ℚ) (hpr : 0 ≤ pr)
    (nc : Int) (hnc : 1 ≤ nc)
    (mode : downsampling_mode_t) (f : Int) (hf : 2 ≤ f)
    (en dc : Bool) (rg off th lv : ℚ) (dirn : trigger_direction_t) (pin : Nat) :
    set_samp_rate s rate = .ok { s with samp_rate := rate, actual_samp_rate := rate }
  ∧ set_samples s post pre = .ok { s with
      samples := post.toNat, pre_samples := pre.toNat,
      buffer_size := post.toNat + pre.toNat }
  ∧ set_buffer_size s bsz = .ok { s with buffer_size := bsz.toNat }
  ∧ set_nr_buffers s nb = .ok { s with nr_buffers := nb.toNat }
  ∧ set_driver_buffer_size s db = .ok { s with driver_buffer_size := db.toNat }
  ∧ set_streaming s pr = .ok { s with
      acquisition_mode := .STREAMING, poll_rate := pr, nr_captures := 1 }
  ∧ set_rapid_block s nc = .ok { s with
      acquisition_mode := .RAPID_BLOCK, nr_captures := nc.toNat }
  ∧ set_downsampling s mode f = .ok { s with
      downsampling_mode := mode,
      downsampling_factor := if mode = .DOWNSAMPLING_MODE_NONE then 1 else f.toNat }
  ∧ set_aichan s chanIdA en rg dc off = .ok { s with
      channel_settings := listModify s.channel_settings 0
        (fun c => { c with range := rg, offset := off, enabled := en, dc_coupled := dc }) }
  ∧ set_diport s portId0 en lv = .ok { s with
      port_settings := listModify s.port_settings 0
        (fun p => { p with logic_level := lv, enabled := en }) }
  ∧ set_aichan_trigger s chanIdA dirn th = .ok { s with
      trigger_settings := { source := chanIdA, threshold := th,
                            direction := dirn, pin_number := 0 } }
  ∧ set_di_trigger s pin dirn = { s with
      trigger_settings := { source := TRIGGER_DIGITAL_SOURCE, threshold := 0,
                            direction := dirn, pin_number := pin } } := by
  refine ⟨?_, ?_, ?_, ?_, ?_, ?_, ?_, ?_, rfl, rfl, rfl, rfl⟩
  · simp [set_samp_rate, not_le.mpr hrate]
  · simp [set_samples, not_lt.mpr hpost, not_lt.mpr hpre]
  · simp [set_buffer_size, not_lt.mpr hbsz]
  · simp [set_nr_buffers, not_lt.mpr hnb]
  · simp [set_driver_buffer_size, not_lt.mpr hdb]
  · simp [set_streaming, not_lt.mpr hpr]
  · simp [set_rapid_block, not_lt.mpr hnc]
  · by_cases hmode : mode = .DOWNSAMPLING_MODE_NONE
    · simp [set_downsampling, hmode]
    · have hflt : ¬ f < 2 := by omega
      simp [set_downsampling, hmode, hflt]

/-- Witness for C2 (amended): on the armed configuration,
`set_samp_rate 2` succeeds and stores the new rate. -/
theorem setters_ignore_armed_state_witness :
    set_samp_rate armed_config 2
      = .ok { armed_config with samp_rate := 2, actual_samp_rate := 2 } :=
  (setters_ignore_armed_state armed_config rfl 2 (by norm_num) 900 100 (by norm_num)
    (by norm_num) 4096 (by norm_num) 64 (by norm_num) 100000 (by norm_num) (1/2)
    (by norm_num) 3 (by norm_num) .DOWNSAMPLING_MODE_DECIMATE 4 (by norm_num)
    true false 5 0 (1/2) (3/2) .TRIGGER_DIRECTION_RISING 3).1

/-! ### Claim C6 (timebase tag) -/

lemma run_work_emit_published (calls : List Int) (nslots : Nat) :
    ∀ s : TimebaseState, s.timebase_published = true →
      (run_work_emit s calls nslots).2 = [] := by
  induction calls with
  | nil => intro s h; rfl
  | cons r rs ih =>
    intro s h
    have hcond : ¬ (0 < r ∧ s.timebase_published = false) := by
      simp [h]
    simp only [run_work_emit, work_emit_timebase, if_neg hcond, List.nil_append]
    exact ih { s with nitems_written := s.nitems_written + r.toNat } (by simpa using h)

lemma run_work_emit_unpublished (calls : List Int) (nslots : Nat) :
    ∀ t : TimebaseState, t.timebase_published = false →
      (run_work_emit t calls nslots).2 =
        if calls.any (fun r => decide (0 < r)) then
          (List.range nslots).map (fun slot => (slot, t.nitems_written))
        else [] := by
  induction calls with
  | nil => intro t ht; rfl
  | cons r rs ih =>
    intro t ht
    by_cases hr : 0 < r
    · have hcond : 0 < r ∧ t.timebase_published = false := ⟨hr, ht⟩
      simp only [run_work_emit, work_emit_timebase, if_pos hcond]
      rw [run_work_emit_published rs nslots _ rfl]
      simp [hr]
    · have hcond : ¬ (0 < r ∧ t.timebase_published = false) := fun hx => hr hx.1
      have hz : r.toNat = 0 := Int.toNat_of_nonpos (le_of_not_lt hr)
      simp only [run_work_emit, work_emit_timebase, if_neg hcond, List.nil_append]
      rw [ih { t with nitems_written := t.nitems_written + r.toNat } ht]
      simp [hr, hz]

/-- C6: after an effective `arm()` (the block was disarmed, so the call
resets `d_timebase_published`), the first subsequent `work()` call
returning `n > 0` emits the timebase tag on every output slot; its
offset is the pre-arm `nitems_written`, which equals the stream offset
of the first sample produced by that call because the calls before it
returned `≤ 0` and produced nothing; and no further timebase tag is
emitted by later calls (until another arm resets the flag). -/
theorem timebase_tag_first_work_after_arm (s : TimebaseState) (hs : s.armed = false)
    (calls : List Int) (nslots : Nat) :
    (run_work_emit (arm_timebase s) calls nslots).2 =
      if calls.any (fun r => decide (0 < r)) then
        (List.range nslots).map (fun slot => (slot, s.nitems_written))
      else [] := by
  have harm : arm_timebase s = { s with armed := true, timebase_published := false } := by
    simp [arm_timebase, hs]
  rw [harm, run_work_emit_unpublished calls nslots _ rfl]

/-- Witness for C6: arming at stream offset 5 (with a stale published
flag), a failed call followed by a successful one emits exactly one
timebase tag per slot at offset 5. -/
theorem timebase_tag_first_work_after_arm_witness :
    (run_work_emit (arm_timebase ⟨true, 5, false⟩) [0, 3] 2).2 = [(0, 5), (1, 5)] := by
  have h := timebase_tag_first_work_after_arm ⟨true, 5, false⟩ rfl [0, 3] 2
  simpa using h

/-! ### Claim C3 (rapid block with trigger_once) -/

lemma work_rapid_block_blocked (cfg : Config) (s : RapidRunState) (nin : Nat)
    (h1 : s.bstate.state = .WAITING) (h2 : cfg.trigger_once = true)
    (h3 : s.was_triggered_once = true) :
    work_rapid_block cfg s nin = (s, -1, 0) := by
  simp [work_rapid_block, h1, h2, h3]

lemma run_rapid_blocked (cfg : Config) (inputs : List Nat) (h2 : cfg.trigger_once = true) :
    ∀ s : RapidRunState, s.bstate.state = .WAITING → s.was_triggered_once = true →
      (run_rapid cfg s inputs).2.1 = inputs.map (fun _ => (-1 : Int)) := by
  induction inputs with
  | nil => intro s h1 h3; rfl
  | cons n ns ih =>
    intro s h1 h3
    simp only [run_rapid, work_rapid_block_blocked cfg s n h1 h2 h3, List.map_cons]
    simp [ih s h1 h3]

lemma work_rapid_block_waiting_fresh (cfg : Config) (b : rapid_block_state_t) (nin : Nat)
    (hb : b.state = .WAITING) :
    work_rapid_block cfg ⟨b, false⟩ nin
      = (⟨rb_update_state
            (rb_set_waveform_params
              ⟨.READING_PART1, cfg.nr_captures, 0, b.offset, b.samples_left⟩ 0
              (get_block_size_with_downsampling cfg))
            (min nin (get_block_size_with_downsampling cfg)),
          true⟩,
        (min nin (get_block_size_with_downsampling cfg) : Int), 1) := by
  simp [work_rapid_block, hb, rb_set_waveform_params]

lemma work_rapid_block_part1 (cfg : Config) (b : rapid_block_state_t) (trig : Bool) (nin : Nat)
    (hb : b.state = .READING_PART1) :
    work_rapid_block cfg ⟨b, trig⟩ nin
      = (⟨rb_update_state (rb_set_waveform_params b 0 (get_block_size_with_downsampling cfg))
            (min nin (get_block_size_with_downsampling cfg)),
          true⟩,
        (min nin (get_block_size_with_downsampling cfg) : Int), 1) := by
  have hw : ¬ b.state = .WAITING := by rw [hb]; intro h; cases h
  simp [work_rapid_block, hw, hb, rb_set_waveform_params]

lemma work_rapid_block_rest (cfg : Config) (b : rapid_block_state_t) (trig : Bool) (nin : Nat)
    (hb : b.state = .READING_THE_REST) :
    work_rapid_block cfg ⟨b, trig⟩ nin
      = (⟨rb_update_state b (min nin b.samples_left), trig⟩,
        (min nin b.samples_left : Int), 0) := by
  have hw : ¬ b.state = .WAITING := by rw [hb]; intro h; cases h
  have hp : ¬ b.state = .READING_PART1 := by rw [hb]; intro h; cases h
  simp [work_rapid_block, hw, hb, hp]

lemma work_rapid_block_step (cfg : Config) (s : RapidRunState) (nin : Nat)
    (h1 : cfg.trigger_once = true) (hN : 1 ≤ cfg.nr_captures) (hwf : rb_wf s) :
    rb_wf (work_rapid_block cfg s nin).1 ∧
      (work_rapid_block cfg s nin).2.2 + rb_remaining cfg (work_rapid_block cfg s nin).1
        ≤ rb_remaining cfg s := by
  obtain ⟨⟨ph, count, idx, off, left⟩, trig⟩ := s
  cases ph with
  | WAITING =>
    cases trig with
    | true =>
      rw [work_rapid_block_blocked cfg _ nin rfl h1 rfl]
      refine ⟨hwf, ?_⟩
      simp
    | false =>
      rw [work_rapid_block_waiting_fresh cfg _ nin rfl]
      simp only [rb_set_waveform_params, rb_update_state, rb_remaining, rb_wf, h1]
      split_ifs <;> simp_all <;> omega
  | READING_PART1 =>
    obtain ⟨hidx, htrig⟩ := hwf (by intro h; cases h)
    subst htrig
    rw [work_rapid_block_part1 cfg _ true nin rfl]
    simp only [rb_set_waveform_params, rb_update_state, rb_remaining, rb_wf, h1] at hidx ⊢
    split_ifs <;> simp_all <;> omega
  | READING_THE_REST =>
    obtain ⟨hidx, htrig⟩ := hwf (by intro h; cases h)
    subst htrig
    rw [work_rapid_block_rest cfg _ true nin rfl]
    simp only [rb_update_state, rb_remaining, rb_wf, h1] at hidx ⊢
    split_ifs <;> simp_all <;> omega

lemma run_rapid_starts_le (cfg : Config) (h1 : cfg.trigger_once = true)
    (hN : 1 ≤ cfg.nr_captures) (inputs : List Nat) :
    ∀ s : RapidRunState, rb_wf s →
      (run_rapid cfg s inputs).2.2 ≤ rb_remaining cfg s := by
  induction inputs with
  | nil => intro s hwf; exact Nat.zero_le _
  | cons n ns ih =>
    intro s hwf
    obtain ⟨hwf2, hle⟩ := work_rapid_block_step cfg s n h1 hN hwf
    calc (run_rapid cfg s (n :: ns)).2.2
        = (work_rapid_block cfg s n).2.2
            + (run_rapid cfg (work_rapid_block cfg s n).1 ns).2.2 := by
          simp [run_rapid]
      _ ≤ (work_rapid_block cfg s n).2.2
            + rb_remaining cfg (work_rapid_block cfg s n).1 :=
          Nat.add_le_add_left (ih _ hwf2) _
      _ ≤ rb_remaining cfg s := hle

/-- Counterexample for C3: with `trigger_once = true` but
`nr_captures = 2`, a run of two `work()` calls from the fresh state
starts (and trigger-tags) two waveforms — not exactly one — because
the `trigger_once && was_triggered_once` check runs only on WAITING
entry, and the state machine moves directly from one waveform to the
next. -/
theorem rapid_block_trigger_once_counterexample :
    cfg_rapid_cx.trigger_once = true ∧ cfg_rapid_cx.nr_captures = 2 ∧
    (run_rapid cfg_rapid_cx rb_fresh [8192, 8192]).2.2 = 2 :=
  ⟨rfl, rfl, rfl⟩

/-- C3 as amended: in RAPID_BLOCK mode with `trigger_once = true`,
exactly one capture sequence of at most `nr_captures` waveforms is
produced over the whole run — exactly one waveform when
`nr_captures = 1` — and every `work()` call that enters the WAITING
state after a waveform has been produced returns a negative value
(end-of-stream), forever after. -/
theorem rapid_block_trigger_once (cfg : Config) (h1 : cfg.trigger_once = true)
    (hN : 1 ≤ cfg.nr_captures) :
    (∀ inputs : List Nat, (run_rapid cfg rb_fresh inputs).2.2 ≤ cfg.nr_captures)
  ∧ (cfg.nr_captures = 1 → ∀ (n : Nat) (ns : List Nat),
        (run_rapid cfg rb_fresh (n :: ns)).2.2 = 1)
  ∧ (∀ (s : RapidRunState) (inputs : List Nat), s.bstate.state = .WAITING →
        s.was_triggered_once = true →
        (run_rapid cfg s inputs).2.1 = inputs.map (fun _ => (-1 : Int))) := by
  have hwf0 : rb_wf rb_fresh := by
    intro h
    exact absurd rfl h
  have hrem0 : rb_remaining cfg rb_fresh = cfg.nr_captures := by
    simp [rb_remaining, rb_fresh]
  refine ⟨?_, ?_, ?_⟩
  · intro inputs
    calc (run_rapid cfg rb_fresh inputs).2.2
        ≤ rb_remaining cfg rb_fresh := run_rapid_starts_le cfg h1 hN inputs rb_fresh hwf0
      _ = cfg.nr_captures := hrem0
  · intro hone n ns
    obtain ⟨hwf2, hle⟩ := work_rapid_block_step cfg rb_fresh n h1 hN hwf0
    have hsplit : (run_rapid cfg rb_fresh (n :: ns)).2.2
        = (work_rapid_block cfg rb_fresh n).2.2
            + (run_rapid cfg (work_rapid_block cfg rb_fresh n).1 ns).2.2 := by
      simp [run_rapid]
    have hw1 : (work_rapid_block cfg rb_fresh n).2.2 = 1 := by
      rw [show rb_fresh = (⟨⟨.WAITING, 0, 0, 0, 0⟩, false⟩ : RapidRunState) from rfl,
        work_rapid_block_waiting_fresh cfg _ n rfl]
    have hrest : (run_rapid cfg (work_rapid_block cfg rb_fresh n).1 ns).2.2 = 0 := by
      have hb := run_rapid_starts_le cfg h1 hN ns _ hwf2
      rw [hrem0, hone, hw1] at hle
      omega
    rw [hsplit, hw1, hrest]
  · intro s inputs hws hts
    exact run_rapid_blocked cfg inputs h1 s hws hts

/-- Witness for C3 (amended): with the default `nr_captures = 1` and
`trigger_once` set, a two-call run from the fresh state produces
exactly one waveform. -/
theorem rapid_block_trigger_once_witness :
    (run_rapid { initial_config false with trigger_once := true } rb_fresh [4, 4]).2.2 = 1 :=
  (rapid_block_trigger_once { initial_config false with trigger_once := true } rfl
    (by decide)).2.1 rfl 4 [4]

end GrDigitizers
